import Mathlib

/-!
Verification of the Architectural Knowledge Graph (AKG) subsystem of the
Blueprint repository: a shallow embedding in Lean 4 of the core data model
(`backend/app/core/akg.py`), the graph builder heuristics
(`backend/app/core/akg_builder.py`), the structural diff engine
(`backend/app/core/diff_engine.py`) and the scratch-directory lifecycle of
the git history navigator (`backend/app/core/git_navigator.py`), together
with theorems settling the frozen specification claims.

Modelling conventions:
- Python `dict[str, V]` becomes an insertion-ordered association list
  `List (String × V)`; dict update overwrites in place, fresh keys append,
  exactly as CPython preserves insertion order.  Python `set` iteration is
  determinized to first-occurrence order (`listDedup`); no claim below
  depends on iteration order.
- Python strings are modelled as Lean `String`, with all operations
  re-implemented over the underlying character lists so that the kernel can
  evaluate them (ASCII model of `str.lower`).
- Machine integers stay `Nat`/`Int`; 32-bit overflow in the md5 hash is the
  explicit `% 4294967296`.
- Methods that can raise are embedded with explicit result pairs or
  `Except`; methods that mutate `self` return the updated structure.
-/

/-! ## String helpers (list-of-char implementations of the Python string ops) -/

/-- Lowercase one ASCII character, as `str.lower` does on ASCII input. -/
def charLower (c : Char) : Char :=
  if 'A' ≤ c ∧ c ≤ 'Z' then Char.ofNat (c.toNat + 32) else c

/-- Python `s.lower()` (ASCII model). -/
def strToLower (s : String) : String := ⟨s.data.map charLower⟩

/-- Does the list start with the given pattern (second argument)? -/
def startsL : List Char → List Char → Bool
  | _, [] => true
  | [], _ :: _ => false
  | a :: as, b :: bs => a == b && startsL as bs

/-- Is `pat` a contiguous infix of the second list? -/
def infixL (pat : List Char) : List Char → Bool
  | [] => startsL [] pat
  | h :: t => startsL (h :: t) pat || infixL pat t

/-- Python `sub in s` on strings. -/
def strContains (s sub : String) : Bool := infixL sub.data s.data

/-- Python `s.endswith(suffix)`. -/
def strEndsWith (s suffix : String) : Bool :=
  startsL s.data.reverse suffix.data.reverse

/-- Python `s.startswith(pre)` where `pre` is given first. -/
def strStartsWith (s pre : String) : Bool := startsL s.data pre.data

/-- Split a character list on a separator character. -/
def splitOnChar (c : Char) : List Char → List (List Char)
  | [] => [[]]
  | h :: t =>
    let r := splitOnChar c t
    if h = c then [] :: r
    else
      match r with
      | [] => [[h]]
      | x :: xs => (h :: x) :: xs

/-- Replace every occurrence of a character, Python `s.replace(".", "/")`. -/
def strReplaceChar (a b : Char) (s : String) : String :=
  ⟨s.data.map (fun c => if c = a then b else c)⟩

/-- Python `s.lstrip(".")`: drop every leading dot. -/
def strLstripDots (s : String) : String := ⟨s.data.dropWhile (· = '.')⟩

/-- Join strings with a separator, Python `sep.join(parts)`. -/
def joinSep (sep : String) (parts : List String) : String :=
  String.intercalate sep parts

/-! ## Association-list model of Python `dict` and `set` -/

/-- First-occurrence lookup; Python dict indexing (dict keys are unique). -/
def alookup {β : Type} : List (String × β) → String → Option β
  | [], _ => none
  | (k, v) :: t, key => if k = key then some v else alookup t key

/-- Python `dict[k] = v`: overwrite an existing key in place, else append. -/
def dictInsert {β : Type} (l : List (String × β)) (k : String) (v : β) :
    List (String × β) :=
  if (l.map Prod.fst).contains k then
    l.map (fun p => if p.1 = k then (k, v) else p)
  else l ++ [(k, v)]

/-- Determinized Python `set(...)` built from a list: first occurrences, in order. -/
def listDedup : List String → List String
  | [] => []
  | h :: t => h :: (listDedup t).filter (fun x => x ≠ h)

/-- Option-collecting map: fails if any element fails.  Used for the
instrumented (exception-aware) variants of the diff engine. -/
def omapM {α β : Type} (f : α → Option β) : List α → Option (List β)
  | [] => some []
  | h :: t =>
    match f h, omapM f t with
    | some b, some bs => some (b :: bs)
    | _, _ => none

/-! ## md5 (RFC 1321) over byte lists, 32-bit words as `Nat % 2^32`.
Needed because `ArchitecturalKnowledgeGraph._generate_node_id` truncates an
md5 hex digest. -/

/-- UTF-8 encoding of one character (Python `str.encode()`). -/
def utf8Char (c : Char) : List Nat :=
  let n := c.toNat
  if n < 128 then [n]
  else if n < 2048 then [192 + n / 64, 128 + n % 64]
  else if n < 65536 then [224 + n / 4096, 128 + (n / 64) % 64, 128 + n % 64]
  else [240 + n / 262144, 128 + (n / 4096) % 64, 128 + (n / 64) % 64, 128 + n % 64]

/-- UTF-8 encoding of a string as a byte list. -/
def utf8Encode (s : String) : List Nat := s.data.flatMap utf8Char

/-- The md5 sine-derived constant table `K` of RFC 1321. -/
def md5K : List Nat :=
  [3614090360, 3905402710, 606105819, 3250441966, 4118548399, 1200080426, 2821735955, 4249261313,
   1770035416, 2336552879, 4294925233, 2304563134, 1804603682, 4254626195, 2792965006, 1236535329,
   4129170786, 3225465664, 643717713, 3921069994, 3593408605, 38016083, 3634488961, 3889429448,
   568446438, 3275163606, 4107603335, 1163531501, 2850285829, 4243563512, 1735328473, 2368359562,
   4294588738, 2272392833, 1839030562, 4259657740, 2763975236, 1272893353, 4139469664, 3200236656,
   681279174, 3936430074, 3572445317, 76029189, 3654602809, 3873151461, 530742520, 3299628645,
   4096336452, 1126891415, 2878612391, 4237533241, 1700485571, 2399980690, 4293915773, 2240044497,
   1873313359, 4264355552, 2734768916, 1309151649, 4149444226, 3174756917, 718787259, 3951481745]

/-- The md5 per-round left-rotation amounts. -/
def md5S : List Nat :=
  [7, 12, 17, 22, 7, 12, 17, 22, 7, 12, 17, 22, 7, 12, 17, 22,
   5, 9, 14, 20, 5, 9, 14, 20, 5, 9, 14, 20, 5, 9, 14, 20,
   4, 11, 16, 23, 4, 11, 16, 23, 4, 11, 16, 23, 4, 11, 16, 23,
   6, 10, 15, 21, 6, 10, 15, 21, 6, 10, 15, 21, 6, 10, 15, 21]

/-- 32-bit left rotation on `Nat % 2^32`. -/
def rotl32 (x s : Nat) : Nat := (x * 2 ^ s + x / 2 ^ (32 - s)) % 4294967296

/-- md5 padding: `0x80`, zeros to 56 mod 64, then the 64-bit little-endian bit length. -/
def md5Pad (msg : List Nat) : List Nat :=
  let len := msg.length
  let zeros := (119 - len % 64) % 64
  let bitlen := len * 8
  msg ++ [128] ++ List.replicate zeros 0 ++
    (List.range 8).map (fun i => bitlen / 2 ^ (8 * i) % 256)

/-- Split a padded message into the first `n` 64-byte chunks. -/
def toChunksN : Nat → List Nat → List (List Nat)
  | 0, _ => []
  | n + 1, l => l.take 64 :: toChunksN n (l.drop 64)

/-- Split a (padded, multiple-of-64) message into 64-byte chunks. -/
def toChunks (l : List Nat) : List (List Nat) := toChunksN (l.length / 64) l

/-- Little-endian 32-bit word `j` of a 64-byte chunk. -/
def md5Word (chunk : List Nat) (j : Nat) : Nat :=
  chunk.getD (4 * j) 0 + 256 * chunk.getD (4 * j + 1) 0 +
    65536 * chunk.getD (4 * j + 2) 0 + 16777216 * chunk.getD (4 * j + 3) 0

/-- One of the 64 md5 rounds on the register quadruple. -/
def md5Round (chunk : List Nat) (st : Nat × Nat × Nat × Nat) (i : Nat) :
    Nat × Nat × Nat × Nat :=
  let (a, b, c, d) := st
  let fg : Nat × Nat :=
    if i < 16 then ((b &&& c) ||| ((b ^^^ 4294967295) &&& d), i)
    else if i < 32 then ((d &&& b) ||| ((d ^^^ 4294967295) &&& c), (5 * i + 1) % 16)
    else if i < 48 then (b ^^^ c ^^^ d, (3 * i + 5) % 16)
    else (c ^^^ (b ||| (d ^^^ 4294967295)), (7 * i) % 16)
  let tmp := (a + fg.1 + md5K.getD i 0 + md5Word chunk fg.2) % 4294967296
  (d, (b + rotl32 tmp (md5S.getD i 0)) % 4294967296, b, c)

/-- Process one 64-byte chunk, folding it into the running digest state. -/
def md5Chunk (st : Nat × Nat × Nat × Nat) (chunk : List Nat) :
    Nat × Nat × Nat × Nat :=
  let (a0, b0, c0, d0) := st
  let (a, b, c, d) := (List.range 64).foldl (md5Round chunk) (a0, b0, c0, d0)
  ((a0 + a) % 4294967296, (b0 + b) % 4294967296, (c0 + c) % 4294967296, (d0 + d) % 4294967296)

/-- Lowercase hex digit character for a nibble: 0-9 then a-f. -/
def hexChar (n : Nat) : Char :=
  if n < 10 then Char.ofNat (48 + n) else Char.ofNat (87 + n)

/-- Two lowercase hex characters of one byte. -/
def byteHex (b : Nat) : List Char := [hexChar (b / 16), hexChar (b % 16)]

/-- Little-endian hex rendering of a 32-bit word, as md5 digests print it. -/
def wordLEHex (w : Nat) : List Char :=
  byteHex (w % 256) ++ byteHex (w / 256 % 256) ++ byteHex (w / 65536 % 256) ++
    byteHex (w / 16777216 % 256)

/-- Python `hashlib.md5(s.encode()).hexdigest()`. -/
def md5Hex (s : String) : String :=
  let msg := md5Pad (utf8Encode s)
  let st := (toChunks msg).foldl md5Chunk (1732584193, 4023233417, 2562383102, 271733878)
  ⟨wordLEHex st.1 ++ wordLEHex st.2.1 ++ wordLEHex st.2.2.1 ++ wordLEHex st.2.2.2⟩

/-! ## Data model (`backend/app/core/akg.py`) -/

/-- Evidence anchoring for a claim (`akg.py` dataclass `Evidence`). -/
structure Evidence where
  claim_id : String
  file_path : String
  line_start : Nat
  line_end : Nat
  quote : String
  confidence : String
deriving DecidableEq

/-- A node of the architectural knowledge graph (`akg.py` dataclass `AKGNode`).
The `metadata` dict, always empty in the builder, is not modelled. -/
structure AKGNode where
  id : String
  type : String
  name : String
  file_path : Option String := none
  line_range : Option (Nat × Nat) := none
  description : Option String := none
  evidence : List Evidence := []
deriving DecidableEq

/-- An edge of the graph (`akg.py` dataclass `AKGEdge`).  The float `weight`
and the `metadata` dict, never read by the code under verification, are not
modelled. -/
structure AKGEdge where
  source_id : String
  target_id : String
  relation : String
  evidence : Option Evidence := none
deriving DecidableEq

/-- A bounded context (`akg.py` dataclass `BoundedContext`), restricted to the
fields the builder and the diff engine read or write. -/
structure BoundedContext where
  name : String
  purpose : String := ""
  key_entities : List String := []
  interfaces : List String := []
  dependencies : List String := []
deriving DecidableEq

/-- An architectural layer (`akg.py` dataclass `ArchitecturalLayer`). -/
structure ArchitecturalLayer where
  name : String
  purpose : String := ""
  components : List String := []
deriving DecidableEq

/-- The graph aggregate (`akg.py` class `ArchitecturalKnowledgeGraph`): the
state read and written by `add_node`/`add_edge` and read by the diff engine.
`created_at` is an opaque timestamp; the evidence map and assessment scores,
untouched by the claims, are not modelled. -/
structure ArchitecturalKnowledgeGraph where
  system_name : String
  created_at : Nat := 0
  nodes : List (String × AKGNode) := []
  edges : List AKGEdge := []
  bounded_contexts : List BoundedContext := []
  layers : List ArchitecturalLayer := []
deriving DecidableEq

/-- The node-id key set of a graph, `set(akg.nodes.keys())`. -/
def nodeKeys (g : ArchitecturalKnowledgeGraph) : List String :=
  g.nodes.map Prod.fst

/-- Python dict indexing `akg.nodes[node_id]`. -/
def lookupNode (g : ArchitecturalKnowledgeGraph) (k : String) : Option AKGNode :=
  alookup g.nodes k

/-- `ArchitecturalKnowledgeGraph._generate_node_id`: md5 of `f"{type}:{name}"`
truncated to 12 hex characters. -/
def generate_node_id (name node_type : String) : String :=
  ⟨(md5Hex (node_type ++ ":" ++ name)).data.take 12⟩

/-- `ArchitecturalKnowledgeGraph.add_node`: fill in a generated id when the
given id is falsy (the empty string), then assign into the node dict.
Returns the updated graph and the node id. -/
def add_node (g : ArchitecturalKnowledgeGraph) (node : AKGNode) :
    ArchitecturalKnowledgeGraph × String :=
  let node := if node.id = "" then { node with id := generate_node_id node.name node.type } else node
  ({ g with nodes := dictInsert g.nodes node.id node }, node.id)

/-- The placeholder node `add_edge` materializes for a missing target. -/
def externalPlaceholder (target_id : String) : AKGNode :=
  { id := target_id, type := "external", name := target_id }

/-- `ArchitecturalKnowledgeGraph.add_edge`, with the Python state and the
raised `ValueError` made explicit: returns the graph as the method leaves it
plus the error message when the method raises. -/
def add_edge_st (g : ArchitecturalKnowledgeGraph) (edge : AKGEdge) :
    ArchitecturalKnowledgeGraph × Option String :=
  if ¬ (nodeKeys g).contains edge.source_id then
    (g, some ("Source node " ++ edge.source_id ++ " not found"))
  else
    let g1 :=
      if (nodeKeys g).contains edge.target_id then g
      else (add_node g (externalPlaceholder edge.target_id)).1
    ({ g1 with edges := g1.edges ++ [edge] }, none)

/-- `add_edge` as a fallible operation: `Except` view of `add_edge_st`. -/
def add_edge (g : ArchitecturalKnowledgeGraph) (edge : AKGEdge) :
    Except String ArchitecturalKnowledgeGraph :=
  match add_edge_st g edge with
  | (_, some msg) => Except.error msg
  | (g1, none) => Except.ok g1

/-- Every edge of the graph has both endpoints present as nodes (spec §3
edge totality). -/
@[reducible] def edgesTotal (g : ArchitecturalKnowledgeGraph) : Prop :=
  ∀ e ∈ g.edges, e.source_id ∈ nodeKeys g ∧ e.target_id ∈ nodeKeys g

/-! ## Builder heuristics (`backend/app/core/akg_builder.py`) -/

/-- Per-module metadata (`akg_builder.py` dataclass `ModuleInfo`). -/
structure ModuleInfo where
  path : String
  language : String
  imports : List String := []
  exports : List String := []
  classes : List String := []
  functions : List String := []
  dependencies : List String := []
deriving DecidableEq

/-- Non-empty `/`-separated path segments: model of `pathlib.PurePath.parts`
for the repo-relative paths the builder handles. -/
def pathSegs (p : String) : List String :=
  ((splitOnChar '/' p.data).filter (fun l => l ≠ [])).map (fun l => (⟨l⟩ : String))

/-- Final name component stripped of its last extension: `pathlib.Path(p).stem`. -/
def pathStem (p : String) : String :=
  let name := ((pathSegs p).getLast?).getD ""
  let pre := name.data.reverse.dropWhile (fun c => c ≠ '.')
  match pre with
  | [] => name
  | _ :: rest => if rest = [] then name else (⟨rest.reverse⟩ : String)

/-- Parent directory as a string: `str(pathlib.Path(p).parent)`. -/
def pathParent (p : String) : String :=
  let segs := pathSegs p
  if segs.length ≤ 1 then "." else joinSep "/" segs.dropLast

/-- Resolution rule 1 of `AKGBuilder._resolve_import`: first known module
whose stem equals the import or is a suffix of it. -/
def resolveRule1 (keys : List String) (import_name : String) : Option String :=
  keys.find? (fun path =>
    pathStem path == import_name || strEndsWith import_name (pathStem path))

/-- Resolution rule 2: first known module whose path contains the dotted
form of the import converted to a path. -/
def resolveRule2 (keys : List String) (import_name : String) : Option String :=
  let import_path := strReplaceChar '.' '/' import_name
  keys.find? (fun path => strContains path import_path)

/-- Resolution rule 3: relative imports resolved against the importer's
directory. -/
def resolveRule3 (keys : List String) (from_path import_name : String) : Option String :=
  if strStartsWith import_name "." then
    let from_dir := pathParent from_path
    let rel_path := strLstripDots import_name
    let possible := from_dir ++ "/" ++ rel_path
    keys.find? (fun path => strContains path possible)
  else none

/-- `AKGBuilder._resolve_import`: the three rules tried in order, first
success wins, `none` when all fail. -/
def resolve_import (modules : List (String × ModuleInfo))
    (from_path import_name : String) : Option String :=
  let keys := modules.map Prod.fst
  match resolveRule1 keys import_name with
  | some p => some p
  | none =>
    match resolveRule2 keys import_name with
    | some p => some p
    | none => resolveRule3 keys from_path import_name

/-- First-match composition of an option list, for stating the rule order. -/
def firstSome {α : Type} : List (Option α) → Option α
  | [] => none
  | some a :: _ => some a
  | none :: t => firstSome t

/-- A directed dependency edge of the `networkx.DiGraph`, with its
`import_name` attribute. -/
structure DepEdge where
  src : String
  tgt : String
  import_name : String
deriving DecidableEq

/-- `networkx.DiGraph.add_edge`: one edge per `(src, tgt)` pair; a repeated
add overwrites the attributes of the existing edge. -/
def addDiEdge (es : List DepEdge) (u v imp : String) : List DepEdge :=
  if es.any (fun e => e.src == u && e.tgt == v) then
    es.map (fun e => if e.src == u && e.tgt == v then ⟨u, v, imp⟩ else e)
  else es ++ [⟨u, v, imp⟩]

/-- The edges `AKGBuilder.build_dependency_graph` adds: for every module and
every import, an edge to the resolved module when resolution succeeds (and
the result is truthy and a known module); unresolved imports add nothing. -/
def build_dependency_edges (modules : List (String × ModuleInfo)) : List DepEdge :=
  modules.foldl (fun es pm =>
    pm.2.imports.foldl (fun es2 imp =>
      match resolve_import modules pm.1 imp with
      | some r =>
        if r ≠ "" ∧ (modules.map Prod.fst).contains r then addDiEdge es2 pm.1 r imp
        else es2
      | none => es2) es) []

/-- `AKGBuilder.LAYER_PATTERNS`, in source (dict-insertion) order. -/
def LAYER_PATTERNS : List (String × List String) :=
  [("presentation",
    ["controller", "view", "component", "page", "screen",
     "handler", "route", "api", "endpoint", "ui", "frontend"]),
   ("business",
    ["service", "usecase", "domain", "business", "core",
     "logic", "manager", "processor", "engine", "workflow"]),
   ("data",
    ["repository", "dao", "model", "entity", "schema",
     "database", "db", "store", "persistence", "orm"]),
   ("infrastructure",
    ["config", "util", "helper", "common", "shared",
     "middleware", "adapter", "client", "provider"])]

/-- The per-module body of `AKGBuilder.detect_layers`: first layer (in
`LAYER_PATTERNS` order) with a keyword contained in the lowercased path,
else the directory-convention fallback, else `"infrastructure"`. -/
def classify_layer (path : String) : String :=
  match LAYER_PATTERNS.find? (fun lp => lp.2.any (fun pat => strContains (strToLower path) pat)) with
  | some lp => lp.1
  | none =>
    if strContains path "/api/" || strContains path "/routes/" then "presentation"
    else if strContains path "/services/" || strContains path "/domain/" then "business"
    else if strContains path "/models/" || strContains path "/db/" then "data"
    else "infrastructure"

/-- `AKGBuilder.detect_layers`: the assignment dict built module by module. -/
def detect_layers (modules : List (String × ModuleInfo)) : List (String × String) :=
  modules.foldl (fun acc pm => dictInsert acc pm.1 (classify_layer pm.1)) []

/-! ## Diff engine (`backend/app/core/diff_engine.py`) -/

/-- The change-type enum of the diff engine. -/
inductive ChangeType where
  | added
  | removed
  | modified
  | moved
  | unchanged
deriving DecidableEq

/-- A node change (`diff_engine.py` dataclass `NodeChange`). -/
structure NodeChange where
  change_type : ChangeType
  node_id : String
  node_name : String
  node_type : String
  file_path : Option String := none
  old_line_range : Option (Nat × Nat) := none
  new_line_range : Option (Nat × Nat) := none
  details : String := ""
  impact : String := "low"
deriving DecidableEq

/-- An edge change (`diff_engine.py` dataclass `EdgeChange`). -/
structure EdgeChange where
  change_type : ChangeType
  source_id : String
  target_id : String
  relation : String
  details : String := ""
deriving DecidableEq

/-- A layer change (`diff_engine.py` dataclass `LayerChange`). -/
structure LayerChange where
  change_type : ChangeType
  layer_name : String
  added_components : List String := []
  removed_components : List String := []
deriving DecidableEq

/-- A bounded-context change (`diff_engine.py` dataclass `ContextChange`). -/
structure ContextChange where
  change_type : ChangeType
  context_name : String
  added_entities : List String := []
  removed_entities : List String := []
deriving DecidableEq

/-- The complete diff (`diff_engine.py` dataclass `BlueprintDiff`). -/
structure BlueprintDiff where
  base_ref : String
  target_ref : String
  base_timestamp : Nat := 0
  target_timestamp : Nat := 0
  node_changes : List NodeChange := []
  edge_changes : List EdgeChange := []
  layer_changes : List LayerChange := []
  context_changes : List ContextChange := []
  summary : String := ""
  risk_level : String := "low"
  breaking_changes : List String := []
deriving DecidableEq

/-- `BlueprintDiff.added_count`. -/
def BlueprintDiff.added_count (d : BlueprintDiff) : Nat :=
  (d.node_changes.filter (fun c => c.change_type == ChangeType.added)).length

/-- `BlueprintDiff.removed_count`. -/
def BlueprintDiff.removed_count (d : BlueprintDiff) : Nat :=
  (d.node_changes.filter (fun c => c.change_type == ChangeType.removed)).length

/-- `BlueprintDiff.modified_count`. -/
def BlueprintDiff.modified_count (d : BlueprintDiff) : Nat :=
  (d.node_changes.filter (fun c => c.change_type == ChangeType.modified)).length

/-- `BlueprintDiffEngine.HIGH_IMPACT_PATTERNS`. -/
def HIGH_IMPACT_PATTERNS : List String :=
  ["api", "interface", "public", "export", "handler",
   "controller", "endpoint", "route", "schema"]

/-- `BlueprintDiffEngine._assess_impact`. -/
def assess_impact (node : AKGNode) : String :=
  let name_lower := strToLower node.name
  let path_lower := strToLower (node.file_path.getD "")
  if HIGH_IMPACT_PATTERNS.any (fun p =>
      strContains name_lower p || strContains path_lower p) then "high"
  else if (node.type == "class" || node.type == "interface") &&
      strContains name_lower "service" then "medium"
  else "low"

/-- `BlueprintDiffEngine._nodes_differ`. -/
def nodes_differ (b t : AKGNode) : Bool :=
  if b.type ≠ t.type then true
  else if b.file_path ≠ t.file_path then true
  else if b.line_range ≠ t.line_range then true
  else false

/-- Python f-string rendering of an optional string (`None` prints as "None"). -/
def pyStrOfOpt : Option String → String
  | none => "None"
  | some s => s

/-- The phrase `_describe_modification` appends when both line ranges are
present and differ: growth, shrinkage, or a pure position change. -/
def sizePhrase (br tr : Nat × Nat) : List String :=
  let size_diff : Int := ((tr.2 : Int) - (tr.1 : Int)) - ((br.2 : Int) - (br.1 : Int))
  if size_diff > 0 then ["expanded by " ++ toString size_diff ++ " lines"]
  else if size_diff < 0 then ["reduced by " ++ toString size_diff.natAbs ++ " lines"]
  else ["position changed"]

/-- The `changes` list `_describe_modification` accumulates. -/
def modificationPhrases (b t : AKGNode) : List String :=
  (if b.file_path ≠ t.file_path then
    ["moved from " ++ pyStrOfOpt b.file_path ++ " to " ++ pyStrOfOpt t.file_path]
   else []) ++
  (if b.line_range ≠ t.line_range then
    match b.line_range, t.line_range with
    | some br, some tr => sizePhrase br tr
    | _, _ => []
   else [])

/-- `BlueprintDiffEngine._describe_modification`. -/
def describe_modification (b t : AKGNode) : String :=
  if (modificationPhrases b t).isEmpty then "content modified"
  else joinSep "; " (modificationPhrases b t)

/-- The `NodeChange` built for an added node. -/
def mkAddedNodeChange (k : String) (node : AKGNode) : NodeChange :=
  { change_type := ChangeType.added, node_id := k, node_name := node.name,
    node_type := node.type, file_path := node.file_path,
    new_line_range := node.line_range,
    details := "New " ++ node.type ++ " added", impact := assess_impact node }

/-- The `NodeChange` built for a removed node. -/
def mkRemovedNodeChange (k : String) (node : AKGNode) : NodeChange :=
  { change_type := ChangeType.removed, node_id := k, node_name := node.name,
    node_type := node.type, file_path := node.file_path,
    old_line_range := node.line_range,
    details := node.type ++ " removed", impact := assess_impact node }

/-- The `NodeChange` built for a modified node. -/
def mkModifiedNodeChange (k : String) (bn tn : AKGNode) : NodeChange :=
  { change_type := ChangeType.modified, node_id := k, node_name := tn.name,
    node_type := tn.type, file_path := tn.file_path,
    old_line_range := bn.line_range, new_line_range := tn.line_range,
    details := describe_modification bn tn, impact := assess_impact tn }

/-- `target_nodes - base_nodes`, determinized to target insertion order. -/
def addedNodeKeys (b t : ArchitecturalKnowledgeGraph) : List String :=
  (listDedup (nodeKeys t)).filter (fun k => !((nodeKeys b).contains k))

/-- `base_nodes - target_nodes`. -/
def removedNodeKeys (b t : ArchitecturalKnowledgeGraph) : List String :=
  (listDedup (nodeKeys b)).filter (fun k => !((nodeKeys t).contains k))

/-- `base_nodes & target_nodes`. -/
def commonNodeKeys (b t : ArchitecturalKnowledgeGraph) : List String :=
  (listDedup (nodeKeys b)).filter (fun k => (nodeKeys t).contains k)

/-- `BlueprintDiffEngine._compare_nodes`: added, then removed, then modified. -/
def compare_nodes (b t : ArchitecturalKnowledgeGraph) : List NodeChange :=
  (addedNodeKeys b t).filterMap (fun k => (lookupNode t k).map (mkAddedNodeChange k)) ++
  (removedNodeKeys b t).filterMap (fun k => (lookupNode b k).map (mkRemovedNodeChange k)) ++
  (commonNodeKeys b t).filterMap (fun k =>
    match lookupNode b k, lookupNode t k with
    | some bn, some tn =>
      if nodes_differ bn tn then some (mkModifiedNodeChange k bn tn) else none
    | _, _ => none)

/-- `_compare_nodes` with every dict access explicit: fails (like a Python
`KeyError`) if any indexing misses. -/
def compare_nodes_checked (b t : ArchitecturalKnowledgeGraph) : Option (List NodeChange) :=
  match omapM (fun k => (lookupNode t k).map (mkAddedNodeChange k)) (addedNodeKeys b t),
        omapM (fun k => (lookupNode b k).map (mkRemovedNodeChange k)) (removedNodeKeys b t),
        omapM (fun k =>
          match lookupNode b k, lookupNode t k with
          | some bn, some tn =>
            some (if nodes_differ bn tn then some (mkModifiedNodeChange k bn tn) else none)
          | _, _ => none) (commonNodeKeys b t) with
  | some a, some r, some m => some (a ++ r ++ m.filterMap id)
  | _, _, _ => none

/-- `edge_key` of `BlueprintDiffEngine._compare_edges`. -/
def edge_key (e : AKGEdge) : String :=
  e.source_id ++ "|" ++ e.target_id ++ "|" ++ e.relation

/-- The `{edge_key(e): e}` dict of an edge list. -/
def edgeDict (es : List AKGEdge) : List (String × AKGEdge) :=
  es.foldl (fun d e => dictInsert d (edge_key e) e) []

/-- The `EdgeChange` built for an added edge. -/
def mkAddedEdgeChange (e : AKGEdge) : EdgeChange :=
  { change_type := ChangeType.added, source_id := e.source_id,
    target_id := e.target_id, relation := e.relation,
    details := "New " ++ e.relation ++ " dependency added" }

/-- The `EdgeChange` built for a removed edge. -/
def mkRemovedEdgeChange (e : AKGEdge) : EdgeChange :=
  { change_type := ChangeType.removed, source_id := e.source_id,
    target_id := e.target_id, relation := e.relation,
    details := e.relation ++ " dependency removed" }

/-- `target_keys - base_keys` over edge signatures. -/
def addedEdgeKeys (b t : ArchitecturalKnowledgeGraph) : List String :=
  ((edgeDict t.edges).map Prod.fst).filter
    (fun k => !(((edgeDict b.edges).map Prod.fst).contains k))

/-- `base_keys - target_keys` over edge signatures. -/
def removedEdgeKeys (b t : ArchitecturalKnowledgeGraph) : List String :=
  ((edgeDict b.edges).map Prod.fst).filter
    (fun k => !(((edgeDict t.edges).map Prod.fst).contains k))

/-- `BlueprintDiffEngine._compare_edges`: added then removed; no modified
concept for edges. -/
def compare_edges (b t : ArchitecturalKnowledgeGraph) : List EdgeChange :=
  (addedEdgeKeys b t).filterMap (fun k => (alookup (edgeDict t.edges) k).map mkAddedEdgeChange) ++
  (removedEdgeKeys b t).filterMap (fun k => (alookup (edgeDict b.edges) k).map mkRemovedEdgeChange)

/-- `_compare_edges` with explicit dict accesses. -/
def compare_edges_checked (b t : ArchitecturalKnowledgeGraph) : Option (List EdgeChange) :=
  match omapM (fun k => (alookup (edgeDict t.edges) k).map mkAddedEdgeChange) (addedEdgeKeys b t),
        omapM (fun k => (alookup (edgeDict b.edges) k).map mkRemovedEdgeChange) (removedEdgeKeys b t) with
  | some a, some r => some (a ++ r)
  | _, _ => none

/-- The `{layer.name: set(layer.components)}` dict. -/
def layerDict (ls : List ArchitecturalLayer) : List (String × List String) :=
  ls.foldl (fun d l => dictInsert d l.name (listDedup l.components)) []

/-- `BlueprintDiffEngine._compare_layers`. -/
def compare_layers (b t : ArchitecturalKnowledgeGraph) : List LayerChange :=
  let bd := layerDict b.layers
  let td := layerDict t.layers
  let names := listDedup (bd.map Prod.fst ++ td.map Prod.fst)
  names.filterMap (fun name =>
    let bc := (alookup bd name).getD []
    let tc := (alookup td name).getD []
    let added := tc.filter (fun c => !(bc.contains c))
    let removed := bc.filter (fun c => !(tc.contains c))
    if added.isEmpty && removed.isEmpty then none
    else
      let ct :=
        if !((bd.map Prod.fst).contains name) then ChangeType.added
        else if !((td.map Prod.fst).contains name) then ChangeType.removed
        else ChangeType.modified
      some { change_type := ct, layer_name := name,
             added_components := added.take 10, removed_components := removed.take 10 })

/-- The `{context.name: set(context.key_entities)}` dict. -/
def contextDict (cs : List BoundedContext) : List (String × List String) :=
  cs.foldl (fun d c => dictInsert d c.name (listDedup c.key_entities)) []

/-- `BlueprintDiffEngine._compare_contexts`. -/
def compare_contexts (b t : ArchitecturalKnowledgeGraph) : List ContextChange :=
  let bd := contextDict b.bounded_contexts
  let td := contextDict t.bounded_contexts
  let names := listDedup (bd.map Prod.fst ++ td.map Prod.fst)
  names.filterMap (fun name =>
    let bc := (alookup bd name).getD []
    let tc := (alookup td name).getD []
    let added := tc.filter (fun c => !(bc.contains c))
    let removed := bc.filter (fun c => !(tc.contains c))
    if added.isEmpty && removed.isEmpty then none
    else
      let ct :=
        if !((bd.map Prod.fst).contains name) then ChangeType.added
        else if !((td.map Prod.fst).contains name) then ChangeType.removed
        else ChangeType.modified
      some { change_type := ct, context_name := name,
             added_entities := added.take 10, removed_entities := removed.take 10 })

/-- The message `_analyze_risk` appends for a removed high-impact node. -/
def breakingNodeMsg (c : NodeChange) : String :=
  "Removed " ++ c.node_type ++ " \x27" ++ c.node_name ++ "\x27 (potentially breaking)"

/-- The message `_analyze_risk` appends for a removed edge toward a public API. -/
def breakingEdgeMsg (e : EdgeChange) : String :=
  "Removed dependency to \x27" ++ e.target_id ++ "\x27"

/-- `BlueprintDiffEngine._analyze_risk`: the breaking-change list and the
risk level it assigns, as a function of the node and edge change lists. -/
def analyze_risk (node_changes : List NodeChange) (edge_changes : List EdgeChange) :
    List String × String :=
  let high_impact_changes := node_changes.filter (fun c =>
    c.impact == "high" &&
      (c.change_type == ChangeType.removed || c.change_type == ChangeType.modified))
  let breaking :=
    high_impact_changes.filterMap (fun c =>
      if c.change_type == ChangeType.removed then some (breakingNodeMsg c) else none) ++
    edge_changes.filterMap (fun e =>
      if e.change_type == ChangeType.removed &&
          (["api", "public", "export"].any (fun p => strContains (strToLower e.target_id) p)) then
        some (breakingEdgeMsg e)
      else none)
  let risk :=
    if breaking.length > 5 then "critical"
    else if breaking.length > 2 then "high"
    else if high_impact_changes.length > 3 then "medium"
    else "low"
  (breaking, risk)

/-- `BlueprintDiffEngine._generate_summary`. -/
def generate_summary (d : BlueprintDiff) : String :=
  let parts :=
    (if d.added_count > 0 then [toString d.added_count ++ " components added"] else []) ++
    (if d.removed_count > 0 then [toString d.removed_count ++ " components removed"] else []) ++
    (if d.modified_count > 0 then [toString d.modified_count ++ " components modified"] else [])
  if parts.isEmpty then "No architectural changes detected"
  else
    let s := "Architecture changes: " ++ joinSep ", " parts ++ "."
    let s :=
      if !d.breaking_changes.isEmpty then
        s ++ " ⚠️ " ++ toString d.breaking_changes.length ++
          " potential breaking change(s)."
      else s
    if !d.layer_changes.isEmpty then s ++ " Layer structure affected." else s

/-- Assemble the `BlueprintDiff` from the computed change lists, exactly as
`compare_akgs` fills the dataclass: risk analysis after the comparisons, the
summary last. -/
def assembleDiff (b t : ArchitecturalKnowledgeGraph) (base_ref target_ref : String)
    (node_changes : List NodeChange) (edge_changes : List EdgeChange) : BlueprintDiff :=
  let rb := analyze_risk node_changes edge_changes
  let d : BlueprintDiff :=
    { base_ref := base_ref, target_ref := target_ref,
      base_timestamp := b.created_at, target_timestamp := t.created_at,
      node_changes := node_changes, edge_changes := edge_changes,
      layer_changes := compare_layers b t, context_changes := compare_contexts b t,
      summary := "", risk_level := rb.2, breaking_changes := rb.1 }
  { d with summary := generate_summary d }

/-- `BlueprintDiffEngine.compare_akgs`. -/
def compare_akgs (b t : ArchitecturalKnowledgeGraph) (base_ref target_ref : String) :
    BlueprintDiff :=
  assembleDiff b t base_ref target_ref (compare_nodes b t) (compare_edges b t)

/-- `compare_akgs` with every dict access explicit: `none` would be a Python
`KeyError` escaping the method. -/
def compare_akgs_checked (b t : ArchitecturalKnowledgeGraph)
    (base_ref target_ref : String) : Option BlueprintDiff :=
  match compare_nodes_checked b t, compare_edges_checked b t with
  | some nc, some ec => some (assembleDiff b t base_ref target_ref nc ec)
  | _, _ => none

/-- State-threaded view of `compare_akgs`: the method reads `base_akg` and
`target_akg` but contains no statement that mutates either (all writes in
its body target the freshly created diff), so the state it hands back for
both inputs is the state it received. -/
def compare_akgs_st (b t : ArchitecturalKnowledgeGraph) (base_ref target_ref : String) :
    (ArchitecturalKnowledgeGraph × ArchitecturalKnowledgeGraph) × BlueprintDiff :=
  ((b, t), compare_akgs b t base_ref target_ref)

/-! ## Scratch-directory lifecycle (`backend/app/core/git_navigator.py`) -/

/-- The observable state of one `GitHistoryNavigator` instance: the scratch
directories existing on disk and the instance's `_temp_dirs` tracking list. -/
structure NavState where
  fs : List String
  tracked : List String
deriving DecidableEq

/-- The operations of a navigator session that create or release scratch
directories.  `checkoutOk` is `checkout_to_temp` succeeding; `checkoutFail`
is `checkout_to_temp` raising after `mkdtemp` (its `except` block removes the
directory and untracks it before re-raising); `buildFail` is
`build_akg_for_ref` whose checkout succeeds and whose graph construction then
raises (its `finally` block deliberately leaves cleanup to `close`). -/
inductive NavOp where
  | checkoutOk (dir : String)
  | checkoutFail (dir : String)
  | buildFail (dir : String)
deriving DecidableEq

/-- The scratch directory an operation materializes. -/
def NavOp.dir : NavOp → String
  | NavOp.checkoutOk d => d
  | NavOp.checkoutFail d => d
  | NavOp.buildFail d => d

/-- One navigator operation acting on the state. -/
def navStep (s : NavState) (op : NavOp) : NavState :=
  match op with
  | NavOp.checkoutOk d => { fs := s.fs ++ [d], tracked := s.tracked ++ [d] }
  | NavOp.buildFail d => { fs := s.fs ++ [d], tracked := s.tracked ++ [d] }
  | NavOp.checkoutFail d =>
    { fs := (s.fs ++ [d]).erase d, tracked := (s.tracked ++ [d]).erase d }

/-- Run a sequence of operations from a state. -/
def navRunFrom (s : NavState) (ops : List NavOp) : NavState := ops.foldl navStep s

/-- Run a navigator session from the freshly constructed instance. -/
def navRun (ops : List NavOp) : NavState := navRunFrom ⟨[], []⟩ ops

/-- `GitHistoryNavigator.close`: `shutil.rmtree(d, ignore_errors=True)` for
every tracked directory, then `self._temp_dirs.clear()`. -/
def nav_close (s : NavState) : NavState :=
  { fs := s.tracked.foldl (fun f d => f.erase d) s.fs, tracked := [] }

/-! ## Concrete inputs and claim-level predicates used by the theorems below -/

/-- The count the risk classifier compares against 3: high-impact node
changes of type removed or modified. -/
def highImpactCount (d : BlueprintDiff) : Nat :=
  (d.node_changes.filter (fun c =>
    c.impact == "high" &&
      (c.change_type == ChangeType.removed || c.change_type == ChangeType.modified))).length

/-- Base graph of the C3 counterexample: two plain classes and one edge whose
target id is `"controller"`. -/
def c3CexBase : ArchitecturalKnowledgeGraph :=
  { system_name := "S",
    nodes := [("a", { id := "a", type := "class", name := "Alpha" }),
              ("controller", { id := "controller", type := "class", name := "Beta" })],
    edges := [{ source_id := "a", target_id := "controller", relation := "depends_on" }] }

/-- Target graph of the C3 counterexample: the same nodes, the edge removed. -/
def c3CexTarget : ArchitecturalKnowledgeGraph :=
  { system_name := "S",
    nodes := [("a", { id := "a", type := "class", name := "Alpha" }),
              ("controller", { id := "controller", type := "class", name := "Beta" })] }

/-- One admissible description phrase (amended to include
`"position changed"`). -/
def modPhraseOk (p : String) : Prop :=
  (∃ x y, p = "moved from " ++ x ++ " to " ++ y) ∨
  (∃ n : Int, 0 < n ∧ p = "expanded by " ++ toString n ++ " lines") ∨
  (∃ n : Nat, 0 < n ∧ p = "reduced by " ++ toString n ++ " lines") ∨
  p = "position changed"

/-- An admissible delta description: the catch-all `"content modified"` or a
`"; "`-join of admissible phrases. -/
def modDescOk (s : String) : Prop :=
  s = "content modified" ∨
  ∃ ps : List String, ps ≠ [] ∧ (∀ p ∈ ps, modPhraseOk p) ∧ s = joinSep "; " ps

/-- Base-side node of the C5 concrete inputs. -/
def c5Node1 : AKGNode :=
  { id := "n", type := "class", name := "Widget",
    file_path := some "core/widget.py", line_range := some (1, 5) }

/-- Target-side node of the C5 concrete inputs: same span length, shifted. -/
def c5Node2 : AKGNode :=
  { id := "n", type := "class", name := "Widget",
    file_path := some "core/widget.py", line_range := some (2, 6) }

/-- Base graph of the C5 concrete inputs. -/
def c5CexBase : ArchitecturalKnowledgeGraph :=
  { system_name := "S", nodes := [("n", c5Node1)] }

/-- Target graph of the C5 concrete inputs. -/
def c5CexTarget : ArchitecturalKnowledgeGraph :=
  { system_name := "S", nodes := [("n", c5Node2)] }

/-- Superset of the description set the claim allows: every description the
claim admits — the catch-all, a single phrase of the three listed families,
or a join of several — contains `"moved from"`, `"expanded by"` or
`"reduced by"`, or equals `"content modified"`.  A details string outside
this superset therefore falsifies the claim. -/
@[reducible] def claimedDescForms (s : String) : Prop :=
  s = "content modified" ∨ strContains s "moved from" = true ∨
  strContains s "expanded by" = true ∨ strContains s "reduced by" = true

/-- Graph of the C2 concrete inputs: one class node `"a"`, no edges. -/
def c2CexGraph : ArchitecturalKnowledgeGraph :=
  { system_name := "Sys", nodes := [("a", { id := "a", type := "class", name := "A" })] }

/-- The C2 counterexample edge: its target id is the empty string. -/
def c2CexEdge : AKGEdge :=
  { source_id := "a", target_id := "", relation := "depends_on" }

/-- What `add_edge` produces for the empty-target edge: the placeholder is
stored under the generated id `md5("external:")[:12] = "37cf3da43a85"`, not
under the edge's target id `""`. -/
def c2CexAfter : ArchitecturalKnowledgeGraph :=
  { system_name := "Sys",
    nodes := [("a", { id := "a", type := "class", name := "A" }),
              ("37cf3da43a85", { id := "37cf3da43a85", type := "external", name := "" })],
    edges := [c2CexEdge] }

/-- Graph of the C2 witness inputs. -/
def c2WGraph : ArchitecturalKnowledgeGraph :=
  { system_name := "Sys", nodes := [("a", { id := "a", type := "class", name := "A" })] }

/-- Witness edge with a non-empty missing target. -/
def c2WEdge : AKGEdge := { source_id := "a", target_id := "svc", relation := "uses" }

/-- The graph `add_edge` produces for the witness edge. -/
def c2WAfter : ArchitecturalKnowledgeGraph :=
  { system_name := "Sys",
    nodes := [("a", { id := "a", type := "class", name := "A" }),
              ("svc", { id := "svc", type := "external", name := "svc" })],
    edges := [c2WEdge] }

/-- An edge the builder may create: its import resolves to its target, a
known module. -/
def depEdgeOk (mods : List (String × ModuleInfo)) (e : DepEdge) : Prop :=
  resolve_import mods e.src e.import_name = some e.tgt ∧ e.tgt ∈ mods.map Prod.fst

/-- Modelled from the claim's wording, for the refinement check only:
rule (a) as an EXACT stem match against known module names. -/
def resolveRule1Exact (keys : List String) (import_name : String) : Option String :=
  keys.find? (fun path => pathStem path == import_name)

/-- Modelled from the claim's wording, for the refinement check only: the
resolver the claim describes — exact stem match, then substring match, then
relative resolution, first success wins. -/
def resolve_import_claimed (modules : List (String × ModuleInfo))
    (from_path import_name : String) : Option String :=
  firstSome
    [resolveRule1Exact (modules.map Prod.fst) import_name,
     resolveRule2 (modules.map Prod.fst) import_name,
     resolveRule3 (modules.map Prod.fst) from_path import_name]

/-- Module table of the C6 counterexample. -/
def c6CexModules : List (String × ModuleInfo) :=
  [("bar.py", { path := "bar.py", language := "python" })]

/-- Module table of the C6 witness. -/
def c6WModules : List (String × ModuleInfo) :=
  [("app/main.py", { path := "app/main.py", language := "python", imports := ["helper"] }),
   ("app/helper.py", { path := "app/helper.py", language := "python" })]

/-- Module table of the C7 witness. -/
def c7WModules : List (String × ModuleInfo) :=
  [("app/core/engine.py", { path := "app/core/engine.py", language := "python" })]

/-- Operation sequence of the C9 witness: a successful checkout, a graph
build that fails after its checkout, and a checkout that itself fails. -/
def c9WOps : List NavOp :=
  [NavOp.checkoutOk "t1", NavOp.buildFail "t2", NavOp.checkoutFail "t3"]

/-! ## Generic lemmas about the dict / set model -/

theorem alookup_isSome_of_mem_keys {β : Type} {l : List (String × β)} {k : String}
    (h : k ∈ l.map Prod.fst) : ∃ v, alookup l k = some v := by
  induction l with
  | nil => simp at h
  | cons hd tl ih =>
    by_cases hk : hd.1 = k
    · exact ⟨hd.2, by simp [alookup, hk]⟩
    · have hmem : k ∈ tl.map Prod.fst := by
        simp only [List.map_cons, List.mem_cons] at h
        rcases h with h | h
        · exact absurd h.symm hk
        · exact h
      obtain ⟨v, hv⟩ := ih hmem
      exact ⟨v, by simpa [alookup, hk] using hv⟩

theorem mem_of_alookup_eq_some {β : Type} {l : List (String × β)} {k : String} {v : β}
    (h : alookup l k = some v) : (k, v) ∈ l := by
  induction l with
  | nil => simp [alookup] at h
  | cons hd tl ih =>
    by_cases hk : hd.1 = k
    · simp only [alookup, hk, if_pos] at h
      cases h
      subst hk
      have he : (hd.1, hd.2) = hd := rfl
      rw [he]
      exact List.mem_cons_self _ _
    · simp only [alookup, hk, if_neg, not_false_iff] at h
      exact List.mem_cons_of_mem _ (ih (by simpa [hk] using h))

theorem mem_keys_of_alookup_eq_some {β : Type} {l : List (String × β)} {k : String} {v : β}
    (h : alookup l k = some v) : k ∈ l.map Prod.fst :=
  List.mem_map.mpr ⟨(k, v), mem_of_alookup_eq_some h, rfl⟩

theorem alookup_append_right {β : Type} {l : List (String × β)} {k : String} (v : β)
    (h : k ∉ l.map Prod.fst) : alookup (l ++ [(k, v)]) k = some v := by
  induction l with
  | nil => simp [alookup]
  | cons hd tl ih =>
    have hk : hd.1 ≠ k := fun he => h (List.mem_map.mpr ⟨hd, List.mem_cons_self _ _, he⟩)
    have htl : k ∉ tl.map Prod.fst := fun hm => h (by simp [hm])
    simpa [alookup, hk] using ih htl

theorem mem_listDedup {l : List String} {x : String} : x ∈ listDedup l ↔ x ∈ l := by
  induction l with
  | nil => simp [listDedup]
  | cons h t ih =>
    simp only [listDedup, List.mem_cons, List.mem_filter]
    constructor
    · rintro (hx | ⟨hx, _⟩)
      · exact Or.inl hx
      · exact Or.inr (ih.mp hx)
    · rintro (hx | hx)
      · exact Or.inl hx
      · by_cases he : x = h
        · exact Or.inl he
        · exact Or.inr ⟨ih.mpr hx, by simpa using he⟩

theorem omapM_eq_some_filterMap {α β : Type} {f : α → Option β} {l : List α}
    (h : ∀ x ∈ l, (f x).isSome) : omapM f l = some (l.filterMap f) := by
  induction l with
  | nil => simp [omapM]
  | cons hd tl ih =>
    obtain ⟨b, hb⟩ := Option.isSome_iff_exists.mp (h hd (List.mem_cons_self _ _))
    have htl := ih (fun x hx => h x (List.mem_cons_of_mem _ hx))
    simp [omapM, hb, htl, List.filterMap_cons]

theorem filterMap_if_eq_map_filter {α β : Type} (q : α → Bool) (m : α → β) (l : List α) :
    l.filterMap (fun x => if q x then some (m x) else none) = (l.filter q).map m := by
  induction l with
  | nil => simp
  | cons hd tl ih =>
    by_cases hq : q hd
    · simp [List.filterMap_cons, List.filter_cons, hq, ih]
    · simp [List.filterMap_cons, List.filter_cons, hq, ih]

theorem filter_not_contains_self {l ks : List String} (h : ∀ x ∈ l, x ∈ ks) :
    l.filter (fun k => !(ks.contains k)) = [] :=
  List.filter_eq_nil_iff.mpr (fun a ha => by simpa using h a ha)

theorem nodes_differ_self (n : AKGNode) : nodes_differ n n = false := by
  simp [nodes_differ]

/-! ## The diff of a graph against itself -/

theorem compare_nodes_self (g : ArchitecturalKnowledgeGraph) : compare_nodes g g = [] := by
  have hadded : addedNodeKeys g g = [] :=
    filter_not_contains_self (fun x hx => mem_listDedup.mp hx)
  have hremoved : removedNodeKeys g g = [] :=
    filter_not_contains_self (fun x hx => mem_listDedup.mp hx)
  have hmod : (commonNodeKeys g g).filterMap (fun k =>
      match lookupNode g k, lookupNode g k with
      | some bn, some tn =>
        if nodes_differ bn tn then some (mkModifiedNodeChange k bn tn) else none
      | _, _ => none) = [] := by
    apply List.filterMap_eq_nil_iff.mpr
    intro k hk
    have : k ∈ nodeKeys g := mem_listDedup.mp (List.mem_filter.mp hk).1
    obtain ⟨n, hn⟩ := alookup_isSome_of_mem_keys this
    simp only [lookupNode, hn, nodes_differ_self, if_neg]
    simp
  simp only [compare_nodes, hadded, hremoved, List.filterMap_nil, List.nil_append]
  exact hmod

theorem compare_edges_self (g : ArchitecturalKnowledgeGraph) : compare_edges g g = [] := by
  have ha : addedEdgeKeys g g = [] := filter_not_contains_self (fun x hx => hx)
  have hr : removedEdgeKeys g g = [] := filter_not_contains_self (fun x hx => hx)
  simp [compare_edges, ha, hr]

/-- C1: for every graph `G`, `compare_akgs(G, G)` yields a diff with no added,
removed or modified node changes, no edge changes, risk level `"low"` and an
empty breaking-change list. -/
theorem c1_diff_self_is_empty (g : ArchitecturalKnowledgeGraph) (br tr : String) :
    (compare_akgs g g br tr).node_changes = [] ∧
    (compare_akgs g g br tr).added_count = 0 ∧
    (compare_akgs g g br tr).removed_count = 0 ∧
    (compare_akgs g g br tr).modified_count = 0 ∧
    (compare_akgs g g br tr).edge_changes = [] ∧
    (compare_akgs g g br tr).risk_level = "low" ∧
    (compare_akgs g g br tr).breaking_changes = [] := by
  have hn := compare_nodes_self g
  have he := compare_edges_self g
  have hd : compare_akgs g g br tr = assembleDiff g g br tr [] [] := by
    rw [compare_akgs, hn, he]
  rw [hd]
  refine ⟨rfl, rfl, rfl, rfl, rfl, rfl, rfl⟩

/-! ## Risk-level thresholds and breaking-change structure -/

/-- C4: the risk level of every diff produced by `compare_akgs` is
`"critical"` exactly when the breaking-change count exceeds 5, otherwise
`"high"` exactly when it exceeds 2, otherwise `"medium"` exactly when the
count of high-impact removed/modified node changes exceeds 3, otherwise
`"low"`. -/
theorem c4_risk_level_thresholds (b t : ArchitecturalKnowledgeGraph) (br tr : String) :
    (compare_akgs b t br tr).risk_level =
      (if (compare_akgs b t br tr).breaking_changes.length > 5 then "critical"
       else if (compare_akgs b t br tr).breaking_changes.length > 2 then "high"
       else if highImpactCount (compare_akgs b t br tr) > 3 then "medium"
       else "low") := rfl

/-! ## C10: add_edge with a missing source raises and leaves the graph unchanged -/

/-- C10: calling `add_edge` with a source id that is not an existing node
raises `ValueError` (unlike a missing target, which is auto-materialized),
and on that error the graph is unchanged: no node and no edge is added. -/
theorem c10_add_edge_missing_source (g : ArchitecturalKnowledgeGraph) (e : AKGEdge)
    (h : e.source_id ∉ nodeKeys g) :
    add_edge_st g e = (g, some ("Source node " ++ e.source_id ++ " not found")) ∧
    add_edge g e = Except.error ("Source node " ++ e.source_id ++ " not found") := by
  have hcond : ¬ ((nodeKeys g).contains e.source_id = true) :=
    fun hb => h (List.mem_of_elem_eq_true hb)
  have hst : add_edge_st g e = (g, some ("Source node " ++ e.source_id ++ " not found")) := by
    unfold add_edge_st
    rw [if_pos hcond]
  exact ⟨hst, by rw [add_edge, hst]⟩

/-- Witness for C10 at a concrete input: the empty graph with an edge whose
source `"x"` is unknown. -/
theorem c10_witness :
    ("x" ∉ nodeKeys ({ system_name := "S" } : ArchitecturalKnowledgeGraph)) ∧
    (add_edge_st ({ system_name := "S" } : ArchitecturalKnowledgeGraph)
        ⟨"x", "y", "calls", none⟩ =
      (({ system_name := "S" } : ArchitecturalKnowledgeGraph),
        some ("Source node " ++ "x" ++ " not found")) ∧
     add_edge ({ system_name := "S" } : ArchitecturalKnowledgeGraph)
        ⟨"x", "y", "calls", none⟩ =
      Except.error ("Source node " ++ "x" ++ " not found")) :=
  ⟨by decide, c10_add_edge_missing_source _ _ (by decide)⟩

theorem bool_and_or_absorb (a r m : Bool) : (r && (a && (r || m))) = (a && r) := by
  cases a <;> cases r <;> cases m <;> rfl

theorem analyze_risk_breaking (nc : List NodeChange) (ec : List EdgeChange) :
    (analyze_risk nc ec).1 =
      (nc.filter (fun c => c.impact == "high" && c.change_type == ChangeType.removed)).map
        breakingNodeMsg ++
      (ec.filter (fun e => e.change_type == ChangeType.removed &&
          (["api", "public", "export"].any (fun p =>
            strContains (strToLower e.target_id) p)))).map breakingEdgeMsg := by
  unfold analyze_risk
  simp only [filterMap_if_eq_map_filter, List.filter_filter]
  congr 1
  apply congrArg
  apply List.filter_congr
  intro c _
  exact bool_and_or_absorb (c.impact == "high") (c.change_type == ChangeType.removed)
    (c.change_type == ChangeType.modified)

/-- C3 (amended): in every diff produced by `compare_akgs`, the breaking-change
list is exactly one message per removed high-impact node change followed by
one message per removed edge whose target id contains a keyword of the
subset `{api, public, export}` (not the full nine-keyword
`HIGH_IMPACT_PATTERNS` set, which is used only for node impact). -/
theorem c3_breaking_messages_amended (b t : ArchitecturalKnowledgeGraph) (br tr : String) :
    (compare_akgs b t br tr).breaking_changes =
      ((compare_akgs b t br tr).node_changes.filter (fun c =>
          c.impact == "high" && c.change_type == ChangeType.removed)).map breakingNodeMsg ++
      ((compare_akgs b t br tr).edge_changes.filter (fun e =>
          e.change_type == ChangeType.removed &&
            (["api", "public", "export"].any (fun p =>
              strContains (strToLower e.target_id) p)))).map breakingEdgeMsg := by
  have hb : (compare_akgs b t br tr).breaking_changes =
      (analyze_risk (compare_nodes b t) (compare_edges b t)).1 := rfl
  have hn : (compare_akgs b t br tr).node_changes = compare_nodes b t := rfl
  have he : (compare_akgs b t br tr).edge_changes = compare_edges b t := rfl
  rw [hb, hn, he, analyze_risk_breaking]

/-- C3 counterexample: the diff removes an edge whose target id contains the
keyword `"controller"` of the claimed nine-keyword API-surface set, yet the
breaking-change list is empty — the code checks removed edges against
`{api, public, export}` only, so the claim as stated is false. -/
theorem c3_counterexample :
    ("controller" ∈ HIGH_IMPACT_PATTERNS) ∧
    (∃ e ∈ (compare_akgs c3CexBase c3CexTarget "base" "target").edge_changes,
      e.change_type = ChangeType.removed ∧
      (HIGH_IMPACT_PATTERNS.any (fun p => strContains (strToLower e.target_id) p)) = true) ∧
    (compare_akgs c3CexBase c3CexTarget "base" "target").breaking_changes = [] := by
  decide

/-! ## C8: totality and purity of compare_akgs -/

theorem compare_nodes_checked_eq (b t : ArchitecturalKnowledgeGraph) :
    compare_nodes_checked b t = some (compare_nodes b t) := by
  have h1 : ∀ k ∈ addedNodeKeys b t, ((lookupNode t k).map (mkAddedNodeChange k)).isSome := by
    intro k hk
    have hm : k ∈ nodeKeys t := mem_listDedup.mp (List.mem_filter.mp hk).1
    obtain ⟨v, hv⟩ := alookup_isSome_of_mem_keys hm
    simp [lookupNode, hv]
  have h2 : ∀ k ∈ removedNodeKeys b t, ((lookupNode b k).map (mkRemovedNodeChange k)).isSome := by
    intro k hk
    have hm : k ∈ nodeKeys b := mem_listDedup.mp (List.mem_filter.mp hk).1
    obtain ⟨v, hv⟩ := alookup_isSome_of_mem_keys hm
    simp [lookupNode, hv]
  have h3 : ∀ k ∈ commonNodeKeys b t,
      (match lookupNode b k, lookupNode t k with
       | some bn, some tn =>
         some (if nodes_differ bn tn then some (mkModifiedNodeChange k bn tn) else none)
       | _, _ => none).isSome := by
    intro k hk
    have hmb : k ∈ nodeKeys b := mem_listDedup.mp (List.mem_filter.mp hk).1
    have hmt : k ∈ nodeKeys t :=
      List.mem_of_elem_eq_true (List.mem_filter.mp hk).2
    obtain ⟨vb, hvb⟩ := alookup_isSome_of_mem_keys hmb
    obtain ⟨vt, hvt⟩ := alookup_isSome_of_mem_keys hmt
    simp [lookupNode, hvb, hvt]
  have hjoin : (List.filterMap (fun k =>
        match lookupNode b k, lookupNode t k with
        | some bn, some tn =>
          some (if nodes_differ bn tn then some (mkModifiedNodeChange k bn tn) else none)
        | _, _ => none) (commonNodeKeys b t)).filterMap id =
      List.filterMap (fun k =>
        match lookupNode b k, lookupNode t k with
        | some bn, some tn =>
          if nodes_differ bn tn then some (mkModifiedNodeChange k bn tn) else none
        | _, _ => none) (commonNodeKeys b t) := by
    rw [List.filterMap_filterMap]
    congr 1
    funext k
    cases hbk : lookupNode b k <;> cases htk : lookupNode t k <;> simp
  unfold compare_nodes_checked compare_nodes
  rw [omapM_eq_some_filterMap h1, omapM_eq_some_filterMap h2, omapM_eq_some_filterMap h3]
  refine congrArg some ?_
  rw [hjoin]

theorem compare_edges_checked_eq (b t : ArchitecturalKnowledgeGraph) :
    compare_edges_checked b t = some (compare_edges b t) := by
  have h1 : ∀ k ∈ addedEdgeKeys b t,
      ((alookup (edgeDict t.edges) k).map mkAddedEdgeChange).isSome := by
    intro k hk
    have hm : k ∈ (edgeDict t.edges).map Prod.fst := (List.mem_filter.mp hk).1
    obtain ⟨v, hv⟩ := alookup_isSome_of_mem_keys hm
    simp [hv]
  have h2 : ∀ k ∈ removedEdgeKeys b t,
      ((alookup (edgeDict b.edges) k).map mkRemovedEdgeChange).isSome := by
    intro k hk
    have hm : k ∈ (edgeDict b.edges).map Prod.fst := (List.mem_filter.mp hk).1
    obtain ⟨v, hv⟩ := alookup_isSome_of_mem_keys hm
    simp [hv]
  unfold compare_edges_checked compare_edges
  rw [omapM_eq_some_filterMap h1, omapM_eq_some_filterMap h2]

/-- C8: `compare_akgs` is total and side-effect-free on its inputs.  The
instrumented variant, in which every Python dict indexing is an explicit
partial lookup, always returns `some` of the diff the plain function
computes — no lookup can miss, so the method has no failure mode; and the
state-threaded view hands both input graphs back exactly as received (the
method body contains no mutation of either input). -/
theorem c8_compare_total_and_pure (b t : ArchitecturalKnowledgeGraph) (br tr : String) :
    compare_akgs_checked b t br tr = some (compare_akgs b t br tr) ∧
    (compare_akgs_st b t br tr).1 = (b, t) := by
  refine ⟨?_, rfl⟩
  unfold compare_akgs_checked
  rw [compare_nodes_checked_eq, compare_edges_checked_eq]
  rfl

/-! ## C5: modified-node detection and delta descriptions -/

theorem sizePhrase_ok (br tr : Nat × Nat) : ∀ p ∈ sizePhrase br tr, modPhraseOk p := by
  intro p hp
  unfold sizePhrase at hp
  by_cases h1 : ((tr.2 : Int) - (tr.1 : Int)) - ((br.2 : Int) - (br.1 : Int)) > 0
  · rw [if_pos h1] at hp
    rcases List.mem_singleton.mp hp with rfl
    exact Or.inr (Or.inl ⟨_, h1, rfl⟩)
  · rw [if_neg h1] at hp
    by_cases h2 : ((tr.2 : Int) - (tr.1 : Int)) - ((br.2 : Int) - (br.1 : Int)) < 0
    · rw [if_pos h2] at hp
      rcases List.mem_singleton.mp hp with rfl
      refine Or.inr (Or.inr (Or.inl ⟨_, ?_, rfl⟩))
      exact Int.natAbs_pos.mpr (ne_of_lt h2)
    · rw [if_neg h2] at hp
      rcases List.mem_singleton.mp hp with rfl
      exact Or.inr (Or.inr (Or.inr rfl))

theorem modificationPhrases_ok (b t : AKGNode) :
    ∀ p ∈ modificationPhrases b t, modPhraseOk p := by
  intro p hp
  unfold modificationPhrases at hp
  rcases List.mem_append.mp hp with hp | hp
  · by_cases hf : b.file_path ≠ t.file_path
    · rw [if_pos hf] at hp
      rcases List.mem_singleton.mp hp with rfl
      exact Or.inl ⟨pyStrOfOpt b.file_path, pyStrOfOpt t.file_path, rfl⟩
    · rw [if_neg hf] at hp
      simp at hp
  · by_cases hr : b.line_range ≠ t.line_range
    · rw [if_pos hr] at hp
      cases hb : b.line_range with
      | none => rw [hb] at hp; simp at hp
      | some br =>
        cases ht : t.line_range with
        | none => rw [hb, ht] at hp; simp at hp
        | some tr =>
          rw [hb, ht] at hp
          exact sizePhrase_ok br tr p hp
    · rw [if_neg hr] at hp
      simp at hp

theorem describe_modification_ok (b t : AKGNode) :
    modDescOk (describe_modification b t) := by
  unfold describe_modification
  by_cases he : (modificationPhrases b t).isEmpty
  · rw [if_pos he]
    exact Or.inl rfl
  · rw [if_neg he]
    refine Or.inr ⟨modificationPhrases b t, ?_, modificationPhrases_ok b t, rfl⟩
    intro hnil
    rw [hnil] at he
    exact he rfl

/-- C5 (amended): for every node id present in both graphs, a node change of
type modified is emitted iff the two nodes differ in kind, file path or line
range; and the delta description of every modified change is the catch-all
`"content modified"` or a `"; "`-join of phrases of the forms
`"moved from X to Y"`, `"expanded by N lines"`, `"reduced by N lines"` or
`"position changed"` — the last form, emitted when the line range moved
without changing length, is what the original claim omits. -/
theorem c5_modified_iff_and_descriptions (b t : ArchitecturalKnowledgeGraph)
    (br tr : String) (i : String) (bn tn : AKGNode)
    (hb : lookupNode b i = some bn) (ht : lookupNode t i = some tn) :
    ((∃ c ∈ (compare_akgs b t br tr).node_changes,
        c.change_type = ChangeType.modified ∧ c.node_id = i) ↔
      nodes_differ bn tn = true) ∧
    (∀ c ∈ (compare_akgs b t br tr).node_changes,
        c.change_type = ChangeType.modified → modDescOk c.details) := by
  have hnch : (compare_akgs b t br tr).node_changes = compare_nodes b t := rfl
  constructor
  · constructor
    · rintro ⟨c, hc, hcm, hci⟩
      rw [hnch] at hc
      unfold compare_nodes at hc
      rcases List.mem_append.mp hc with hc | hc
      · rcases List.mem_append.mp hc with hc | hc
        · rcases List.mem_filterMap.mp hc with ⟨k, _, hfk⟩
          rcases Option.map_eq_some'.mp hfk with ⟨n, _, hmk⟩
          rw [← hmk] at hcm
          simp [mkAddedNodeChange] at hcm
        · rcases List.mem_filterMap.mp hc with ⟨k, _, hfk⟩
          rcases Option.map_eq_some'.mp hfk with ⟨n, _, hmk⟩
          rw [← hmk] at hcm
          simp [mkRemovedNodeChange] at hcm
      · rcases List.mem_filterMap.mp hc with ⟨k, hk, hfk⟩
        cases hbk : lookupNode b k with
        | none => rw [hbk] at hfk; simp at hfk
        | some bn1 =>
          cases htk : lookupNode t k with
          | none => rw [hbk, htk] at hfk; simp at hfk
          | some tn1 =>
            rw [hbk, htk] at hfk
            dsimp only at hfk
            by_cases hdk : nodes_differ bn1 tn1
            · rw [if_pos hdk] at hfk
              cases hfk
              have hki : k = i := hci
              rw [hki] at hbk htk
              rw [hb] at hbk
              rw [ht] at htk
              cases hbk
              cases htk
              exact hdk
            · rw [if_neg hdk] at hfk
              exact absurd hfk (by simp)
    · intro hdiff
      refine ⟨mkModifiedNodeChange i bn tn, ?_, rfl, rfl⟩
      rw [hnch]
      unfold compare_nodes
      refine List.mem_append.mpr (Or.inr ?_)
      refine List.mem_filterMap.mpr ⟨i, ?_, ?_⟩
      · refine List.mem_filter.mpr ⟨?_, ?_⟩
        · exact mem_listDedup.mpr (mem_keys_of_alookup_eq_some hb)
        · exact List.elem_eq_true_of_mem (mem_keys_of_alookup_eq_some ht)
      · rw [hb, ht]
        dsimp only
        rw [if_pos hdiff]
  · intro c hc hcm
    rw [hnch] at hc
    unfold compare_nodes at hc
    rcases List.mem_append.mp hc with hc | hc
    · rcases List.mem_append.mp hc with hc | hc
      · rcases List.mem_filterMap.mp hc with ⟨k, _, hfk⟩
        rcases Option.map_eq_some'.mp hfk with ⟨n, _, hmk⟩
        rw [← hmk] at hcm
        simp [mkAddedNodeChange] at hcm
      · rcases List.mem_filterMap.mp hc with ⟨k, _, hfk⟩
        rcases Option.map_eq_some'.mp hfk with ⟨n, _, hmk⟩
        rw [← hmk] at hcm
        simp [mkRemovedNodeChange] at hcm
    · rcases List.mem_filterMap.mp hc with ⟨k, hk, hfk⟩
      cases hbk : lookupNode b k with
      | none => rw [hbk] at hfk; simp at hfk
      | some bn1 =>
        cases htk : lookupNode t k with
        | none => rw [hbk, htk] at hfk; simp at hfk
        | some tn1 =>
          rw [hbk, htk] at hfk
          dsimp only at hfk
          by_cases hdk : nodes_differ bn1 tn1
          · rw [if_pos hdk] at hfk
            cases hfk
            exact describe_modification_ok bn1 tn1
          · rw [if_neg hdk] at hfk
            exact absurd hfk (by simp)

/-- C5 counterexample: a node whose line range shifts from (1,5) to (2,6)
produces a modified change whose description is `"position changed"`, which
is not among the claim's description forms. -/
theorem c5_counterexample :
    (∃ c ∈ (compare_akgs c5CexBase c5CexTarget "base" "target").node_changes,
      c.change_type = ChangeType.modified ∧ c.details = "position changed") ∧
    ¬ claimedDescForms "position changed" := by
  decide

/-- Witness for C5 at the concrete inputs above. -/
theorem c5_witness :
    lookupNode c5CexBase "n" = some c5Node1 ∧
    lookupNode c5CexTarget "n" = some c5Node2 ∧
    (((∃ c ∈ (compare_akgs c5CexBase c5CexTarget "base" "target").node_changes,
        c.change_type = ChangeType.modified ∧ c.node_id = "n") ↔
       nodes_differ c5Node1 c5Node2 = true) ∧
     (∀ c ∈ (compare_akgs c5CexBase c5CexTarget "base" "target").node_changes,
        c.change_type = ChangeType.modified → modDescOk c.details)) :=
  ⟨by decide, by decide,
    c5_modified_iff_and_descriptions c5CexBase c5CexTarget "base" "target" "n"
      c5Node1 c5Node2 (by decide) (by decide)⟩

/-! ## C2: edge totality of add_edge -/

theorem add_edge_target_present (g : ArchitecturalKnowledgeGraph) (e : AKGEdge)
    (hs : e.source_id ∈ nodeKeys g) (ht : e.target_id ∈ nodeKeys g) :
    add_edge g e = Except.ok { g with edges := g.edges ++ [e] } := by
  have hsc : (nodeKeys g).contains e.source_id = true := List.elem_eq_true_of_mem hs
  have htc : (nodeKeys g).contains e.target_id = true := List.elem_eq_true_of_mem ht
  simp [add_edge, add_edge_st, hs, ht, hsc, htc]

theorem add_edge_target_absent (g : ArchitecturalKnowledgeGraph) (e : AKGEdge)
    (hs : e.source_id ∈ nodeKeys g) (ht : (nodeKeys g).contains e.target_id = false)
    (hne : e.target_id ≠ "") :
    add_edge g e = Except.ok
      { g with nodes := g.nodes ++ [(e.target_id, externalPlaceholder e.target_id)],
               edges := g.edges ++ [e] } := by
  have hsc : (List.map Prod.fst g.nodes).contains e.source_id = true :=
    List.elem_eq_true_of_mem hs
  have htf : (List.map Prod.fst g.nodes).contains e.target_id = false := ht
  have hsm : e.source_id ∈ List.map Prod.fst g.nodes := hs
  have htm : e.target_id ∉ List.map Prod.fst g.nodes := fun hm => by
    have hc2 : (List.map Prod.fst g.nodes).contains e.target_id = true :=
      List.elem_eq_true_of_mem hm
    rw [hc2] at htf
    exact Bool.noConfusion htf
  simp [add_edge, add_edge_st, add_node, dictInsert, externalPlaceholder, nodeKeys,
    hsc, htf, hsm, htm, hne]

/-- C2 (amended): `add_edge` preserves edge totality and materializes the
`"external"` placeholder for a missing target, provided the target id is
non-empty.  (With an empty target id, `add_node` treats the placeholder's id
as falsy and stores it under a generated md5 id instead, leaving the new edge
dangling — the counterexample below.) -/
theorem c2_add_edge_totality (g : ArchitecturalKnowledgeGraph) (e : AKGEdge)
    (g1 : ArchitecturalKnowledgeGraph) (hg : edgesTotal g) (hne : e.target_id ≠ "")
    (hok : add_edge g e = Except.ok g1) :
    edgesTotal g1 ∧
    (e.target_id ∉ nodeKeys g →
      lookupNode g1 e.target_id = some (externalPlaceholder e.target_id)) := by
  have hs : e.source_id ∈ nodeKeys g := by
    by_contra hns
    have hcond : ¬ ((nodeKeys g).contains e.source_id = true) :=
      fun hb => hns (List.mem_of_elem_eq_true hb)
    unfold add_edge add_edge_st at hok
    rw [if_pos hcond] at hok
    simp at hok
  by_cases htc : e.target_id ∈ nodeKeys g
  · rw [add_edge_target_present g e hs htc] at hok
    injection hok with hok1
    subst hok1
    constructor
    · intro e' he'
      rcases List.mem_append.mp he' with he' | he'
      · exact hg e' he'
      · rcases List.mem_singleton.mp he' with rfl
        exact ⟨hs, htc⟩
    · intro hni
      exact absurd htc hni
  · have hct : (nodeKeys g).contains e.target_id = false := by
      cases hcc : (nodeKeys g).contains e.target_id
      · rfl
      · exact absurd (List.mem_of_elem_eq_true hcc) htc
    rw [add_edge_target_absent g e hs hct hne] at hok
    injection hok with hok1
    subst hok1
    have hkeys : nodeKeys
        { g with nodes := g.nodes ++ [(e.target_id, externalPlaceholder e.target_id)],
                 edges := g.edges ++ [e] } = nodeKeys g ++ [e.target_id] := by
      simp [nodeKeys]
    constructor
    · intro e' he'
      rcases List.mem_append.mp he' with he' | he'
      · obtain ⟨h1', h2'⟩ := hg e' he'
        rw [hkeys]
        exact ⟨List.mem_append.mpr (Or.inl h1'), List.mem_append.mpr (Or.inl h2')⟩
      · rcases List.mem_singleton.mp he' with rfl
        rw [hkeys]
        exact ⟨List.mem_append.mpr (Or.inl hs),
          List.mem_append.mpr (Or.inr (List.mem_singleton.mpr rfl))⟩
    · intro _
      exact alookup_append_right _ (fun hm => htc hm)

/-- C2 counterexample: starting from a total graph, `add_edge` with an empty
target id succeeds, materializes a placeholder under a different (generated)
id, and leaves the appended edge dangling: its target `""` is not a node of
the resulting graph.  The claim, quantified over every call, is false. -/
theorem c2_counterexample :
    edgesTotal c2CexGraph ∧
    add_edge c2CexGraph c2CexEdge = Except.ok c2CexAfter ∧
    c2CexEdge ∈ c2CexAfter.edges ∧
    "" ∉ nodeKeys c2CexAfter ∧
    ¬ edgesTotal c2CexAfter :=
  ⟨by decide, by rfl, by decide, by decide, by decide⟩

/-- Witness for the amended C2 at a concrete input. -/
theorem c2_witness :
    edgesTotal c2WGraph ∧ c2WEdge.target_id ≠ "" ∧
    add_edge c2WGraph c2WEdge = Except.ok c2WAfter ∧
    (edgesTotal c2WAfter ∧
      (c2WEdge.target_id ∉ nodeKeys c2WGraph →
        lookupNode c2WAfter c2WEdge.target_id =
          some (externalPlaceholder c2WEdge.target_id))) :=
  ⟨by decide, by decide, by rfl,
    c2_add_edge_totality c2WGraph c2WEdge c2WAfter (by decide) (by decide) (by rfl)⟩

/-! ## C6: import resolution order and silent dropping -/

theorem addDiEdge_forall {P : DepEdge → Prop} {es : List DepEdge} {u v imp : String}
    (hall : ∀ x ∈ es, P x) (hnew : P ⟨u, v, imp⟩) :
    ∀ x ∈ addDiEdge es u v imp, P x := by
  intro x hx
  unfold addDiEdge at hx
  by_cases hc : es.any (fun e => e.src == u && e.tgt == v) = true
  · rw [if_pos hc] at hx
    rcases List.mem_map.mp hx with ⟨y, hy, hyx⟩
    by_cases hcy : (y.src == u && y.tgt == v) = true
    · rw [if_pos hcy] at hyx
      rw [← hyx]
      exact hnew
    · rw [if_neg hcy] at hyx
      rw [← hyx]
      exact hall y hy
  · rw [if_neg hc] at hx
    rcases List.mem_append.mp hx with hx | hx
    · exact hall x hx
    · rcases List.mem_singleton.mp hx with rfl
      exact hnew

theorem build_dep_inner (mods : List (String × ModuleInfo)) (p : String)
    (imports : List String) (es : List DepEdge) (hall : ∀ x ∈ es, depEdgeOk mods x) :
    ∀ x ∈ imports.foldl (fun es2 imp =>
      match resolve_import mods p imp with
      | some r =>
        if r ≠ "" ∧ (mods.map Prod.fst).contains r then addDiEdge es2 p r imp
        else es2
      | none => es2) es, depEdgeOk mods x := by
  induction imports generalizing es with
  | nil => simpa using hall
  | cons imp rest ih =>
    intro x hx
    rw [List.foldl_cons] at hx
    refine ih _ ?_ x hx
    intro y hy
    cases hres : resolve_import mods p imp with
    | none =>
      rw [hres] at hy
      exact hall y hy
    | some r =>
      rw [hres] at hy
      dsimp only at hy
      by_cases hc : r ≠ "" ∧ ((mods.map Prod.fst).contains r = true)
      · rw [if_pos hc] at hy
        refine addDiEdge_forall hall ?_ y hy
        exact ⟨hres, List.mem_of_elem_eq_true hc.2⟩
      · rw [if_neg hc] at hy
        exact hall y hy

theorem build_dependency_edges_ok (mods : List (String × ModuleInfo)) :
    ∀ e ∈ build_dependency_edges mods, depEdgeOk mods e := by
  unfold build_dependency_edges
  suffices h : ∀ (ms : List (String × ModuleInfo)) (es : List DepEdge),
      (∀ x ∈ es, depEdgeOk mods x) →
      ∀ x ∈ ms.foldl (fun es pm =>
        pm.2.imports.foldl (fun es2 imp =>
          match resolve_import mods pm.1 imp with
          | some r =>
            if r ≠ "" ∧ (mods.map Prod.fst).contains r then addDiEdge es2 pm.1 r imp
            else es2
          | none => es2) es) es, depEdgeOk mods x by
    exact h mods [] (by simp)
  intro ms
  induction ms with
  | nil => intro es hall; simpa using hall
  | cons pm rest ih =>
    intro es hall x hx
    rw [List.foldl_cons] at hx
    exact ih _ (build_dep_inner mods pm.1 pm.2.imports es hall) x hx

/-- C6 (amended): import resolution tries the three rules in fixed priority
order and returns the first success (not the best match), where rule (a) is
a stem match in which the import either EQUALS a known module's stem or
merely ENDS WITH it — the exact-match-only reading of the claim is refuted
below; and when no rule succeeds the import is silently dropped: every
dependency edge the builder creates carries an import that resolves to the
edge's target, a known module, so an unresolved import creates no edge and
raises no error. -/
theorem c6_resolution_amended :
    (∀ (mods : List (String × ModuleInfo)) (fp imp : String),
      resolve_import mods fp imp = firstSome
        [resolveRule1 (mods.map Prod.fst) imp,
         resolveRule2 (mods.map Prod.fst) imp,
         resolveRule3 (mods.map Prod.fst) fp imp]) ∧
    (∀ (mods : List (String × ModuleInfo)) (e : DepEdge),
      e ∈ build_dependency_edges mods →
      resolve_import mods e.src e.import_name = some e.tgt ∧ e.tgt ∈ mods.map Prod.fst) := by
  constructor
  · intro mods fp imp
    unfold resolve_import
    cases h1 : resolveRule1 (mods.map Prod.fst) imp <;>
      cases h2 : resolveRule2 (mods.map Prod.fst) imp <;>
        cases h3 : resolveRule3 (mods.map Prod.fst) fp imp <;>
          simp [firstSome, h1, h2, h3]
  · intro mods e he
    exact build_dependency_edges_ok mods e he

/-- C6 counterexample: the import `"sugarbar"` is not an exact stem match
for the only module `"bar.py"` (stem `"bar"`), contains no path match and is
not relative, so the claimed resolver drops it — but the code's rule (a)
also accepts a mere suffix match (`"sugarbar".endswith("bar")`), so the real
resolver returns `"bar.py"`. -/
theorem c6_counterexample :
    resolve_import c6CexModules "main.py" "sugarbar" = some "bar.py" ∧
    resolve_import_claimed c6CexModules "main.py" "sugarbar" = none := by
  decide

/-- Witness for the amended C6 at a concrete input: the one dependency edge
the builder creates for these modules carries a resolvable import. -/
theorem c6_witness :
    (⟨"app/main.py", "app/helper.py", "helper"⟩ : DepEdge) ∈
      build_dependency_edges c6WModules ∧
    (resolve_import c6WModules "app/main.py" "helper" = some "app/helper.py" ∧
     "app/helper.py" ∈ c6WModules.map Prod.fst) :=
  ⟨by decide,
    c6_resolution_amended.2 c6WModules ⟨"app/main.py", "app/helper.py", "helper"⟩ (by decide)⟩

/-! ## C7: layer classification -/

theorem classify_layer_mem (p : String) :
    classify_layer p ∈ ["presentation", "business", "data", "infrastructure"] := by
  unfold classify_layer
  cases hf : LAYER_PATTERNS.find? (fun lp =>
      lp.2.any (fun pat => strContains (strToLower p) pat)) with
  | some lp =>
    have hm := List.mem_of_find?_eq_some hf
    simp only [LAYER_PATTERNS, List.mem_cons, List.not_mem_nil, or_false] at hm
    rcases hm with rfl | rfl | rfl | rfl <;> simp
  | none =>
    dsimp only
    split_ifs <;> decide

theorem dictInsert_forall {β : Type} {P : String × β → Prop} {l : List (String × β)}
    {k : String} {v : β} (hall : ∀ kv ∈ l, P kv) (hnew : P (k, v)) :
    ∀ kv ∈ dictInsert l k v, P kv := by
  intro kv hkv
  unfold dictInsert at hkv
  by_cases hc : (l.map Prod.fst).contains k = true
  · rw [if_pos hc] at hkv
    rcases List.mem_map.mp hkv with ⟨y, hy, hyx⟩
    by_cases hyk : y.1 = k
    · rw [if_pos hyk] at hyx
      rw [← hyx]
      exact hnew
    · rw [if_neg hyk] at hyx
      rw [← hyx]
      exact hall y hy
  · rw [if_neg hc] at hkv
    rcases List.mem_append.mp hkv with hkv | hkv
    · exact hall kv hkv
    · rcases List.mem_singleton.mp hkv with rfl
      exact hnew

theorem dictInsert_mem_keys {β : Type} (l : List (String × β)) (k : String) (v : β) :
    k ∈ (dictInsert l k v).map Prod.fst := by
  unfold dictInsert
  by_cases hc : (l.map Prod.fst).contains k = true
  · rw [if_pos hc]
    rcases List.mem_map.mp (List.mem_of_elem_eq_true hc) with ⟨q, hq, hqk⟩
    refine List.mem_map.mpr ⟨(k, v), List.mem_map.mpr ⟨q, hq, ?_⟩, rfl⟩
    rw [if_pos hqk]
  · rw [if_neg hc]
    simp

theorem dictInsert_keys_mono {β : Type} (l : List (String × β)) (k : String) (v : β)
    (x : String) (hx : x ∈ l.map Prod.fst) : x ∈ (dictInsert l k v).map Prod.fst := by
  unfold dictInsert
  by_cases hc : (l.map Prod.fst).contains k = true
  · rw [if_pos hc]
    rcases List.mem_map.mp hx with ⟨q, hq, hqx⟩
    by_cases hqk : q.1 = k
    · refine List.mem_map.mpr ⟨(k, v), List.mem_map.mpr ⟨q, hq, ?_⟩, ?_⟩
      · rw [if_pos hqk]
      · rw [← hqx, hqk]
    · refine List.mem_map.mpr ⟨q, List.mem_map.mpr ⟨q, hq, ?_⟩, hqx⟩
      rw [if_neg hqk]
  · rw [if_neg hc]
    rw [List.map_append]
    exact List.mem_append.mpr (Or.inl hx)

theorem detect_layers_entries (mods : List (String × ModuleInfo)) :
    ∀ kv ∈ detect_layers mods, kv.2 = classify_layer kv.1 := by
  unfold detect_layers
  suffices h : ∀ (ms : List (String × ModuleInfo)) (acc : List (String × String)),
      (∀ kv ∈ acc, kv.2 = classify_layer kv.1) →
      ∀ kv ∈ ms.foldl (fun acc pm => dictInsert acc pm.1 (classify_layer pm.1)) acc,
        kv.2 = classify_layer kv.1 by
    exact h mods [] (by simp)
  intro ms
  induction ms with
  | nil => intro acc hall; simpa using hall
  | cons pm rest ih =>
    intro acc hall kv hkv
    rw [List.foldl_cons] at hkv
    exact ih _ (dictInsert_forall hall rfl) kv hkv

theorem detect_layers_keys (mods : List (String × ModuleInfo)) (p : String)
    (hp : p ∈ mods.map Prod.fst) : p ∈ (detect_layers mods).map Prod.fst := by
  unfold detect_layers
  suffices h : ∀ (ms : List (String × ModuleInfo)) (acc : List (String × String)),
      (p ∈ acc.map Prod.fst ∨ p ∈ ms.map Prod.fst) →
      p ∈ (ms.foldl (fun acc pm => dictInsert acc pm.1 (classify_layer pm.1)) acc).map Prod.fst by
    exact h mods [] (Or.inr hp)
  intro ms
  induction ms with
  | nil =>
    intro acc hacc
    rcases hacc with hacc | hacc
    · simpa using hacc
    · simp at hacc
  | cons pm rest ih =>
    intro acc hacc
    rw [List.foldl_cons]
    rcases hacc with hacc | hacc
    · exact ih _ (Or.inl (dictInsert_keys_mono acc pm.1 (classify_layer pm.1) p hacc))
    · simp only [List.map_cons, List.mem_cons] at hacc
      rcases hacc with rfl | hacc
      · exact ih _ (Or.inl (dictInsert_mem_keys acc pm.1 (classify_layer pm.1)))
      · exact ih _ (Or.inr hacc)

/-- C7: `detect_layers` assigns every module exactly one layer, namely
`classify_layer` of its path — a pure function of the path alone, testing
the lowercased path against the per-layer keyword lists in fixed priority
order with first match winning, then the directory-convention fallback, then
the `"infrastructure"` default — and that layer is always one of the four
fixed layer names.  Determinism is immediate: the assignment depends only on
the path, so identical paths always receive identical layers. -/
theorem c7_layer_assignment (mods : List (String × ModuleInfo)) (p : String)
    (hp : p ∈ mods.map Prod.fst) :
    alookup (detect_layers mods) p = some (classify_layer p) ∧
    classify_layer p ∈ ["presentation", "business", "data", "infrastructure"] := by
  constructor
  · obtain ⟨v, hv⟩ := alookup_isSome_of_mem_keys (detect_layers_keys mods p hp)
    have hent := detect_layers_entries mods (p, v) (mem_of_alookup_eq_some hv)
    rw [hv]
    exact congrArg some hent
  · exact classify_layer_mem p

/-- Witness for C7 at a concrete input (the path contains the business
keyword `"core"`). -/
theorem c7_witness :
    ("app/core/engine.py" ∈ c7WModules.map Prod.fst) ∧
    (alookup (detect_layers c7WModules) "app/core/engine.py" =
        some (classify_layer "app/core/engine.py") ∧
      classify_layer "app/core/engine.py" ∈
        ["presentation", "business", "data", "infrastructure"]) :=
  ⟨by decide, c7_layer_assignment c7WModules "app/core/engine.py" (by decide)⟩

/-! ## C9: close releases every tracked scratch directory and is idempotent -/

theorem not_mem_append_singleton {x d : String} {l : List String}
    (h1 : x ∉ l) (h2 : x ≠ d) : x ∉ l ++ [d] := by
  intro hm
  rcases List.mem_append.mp hm with hm | hm
  · exact h1 hm
  · exact h2 (List.mem_singleton.mp hm)

theorem nodup_append_singleton {l : List String} {d : String}
    (h : l.Nodup) (hd : d ∉ l) : (l ++ [d]).Nodup := by
  induction l with
  | nil => simp
  | cons a t ih =>
    rcases List.nodup_cons.mp h with ⟨ha, ht⟩
    have hd' : d ∉ t := fun hm => hd (List.mem_cons_of_mem _ hm)
    have hda : d ≠ a := fun he => hd (he ▸ List.mem_cons_self _ _)
    refine List.nodup_cons.mpr ⟨?_, ih ht hd'⟩
    exact not_mem_append_singleton ha (fun he => hda he.symm)

theorem not_mem_foldl_erase {d : String} :
    ∀ (l fs : List String), d ∉ fs → d ∉ l.foldl (fun f x => f.erase x) fs := by
  intro l
  induction l with
  | nil => intro fs hd; simpa using hd
  | cons x rest ih =>
    intro fs hd
    rw [List.foldl_cons]
    exact ih (fs.erase x) (fun hm => hd (List.erase_subset x fs hm))

theorem mem_tracked_not_mem_foldl {tr : List String} :
    ∀ fs : List String, fs.Nodup → ∀ d ∈ tr, d ∉ tr.foldl (fun f x => f.erase x) fs := by
  induction tr with
  | nil => simp
  | cons x rest ih =>
    intro fs hnd d hd
    rw [List.foldl_cons]
    rcases List.mem_cons.mp hd with rfl | hd
    · exact not_mem_foldl_erase rest (fs.erase d) hnd.not_mem_erase
    · exact ih (fs.erase x) (hnd.erase x) d hd

theorem nav_inv : ∀ (ops : List NavOp) (s : NavState),
    (ops.map NavOp.dir).Nodup → (∀ o ∈ ops, o.dir ∉ s.fs) →
    (∀ o ∈ ops, o.dir ∉ s.tracked) → s.fs.Nodup → s.tracked.Nodup →
    (navRunFrom s ops).fs.Nodup ∧ (navRunFrom s ops).tracked.Nodup := by
  intro ops
  induction ops with
  | nil => intro s _ _ _ h1 h2; exact ⟨h1, h2⟩
  | cons o rest ih =>
    intro s hnd hfs htr h1 h2
    have hof : o.dir ∉ s.fs := hfs o (List.mem_cons_self _ _)
    have hot : o.dir ∉ s.tracked := htr o (List.mem_cons_self _ _)
    have hnd' : (o.dir :: rest.map NavOp.dir).Nodup := by simpa using hnd
    have hhead : o.dir ∉ rest.map NavOp.dir := (List.nodup_cons.mp hnd').1
    have hndrest : (rest.map NavOp.dir).Nodup := (List.nodup_cons.mp hnd').2
    have hdir_rest : ∀ o' ∈ rest, o'.dir ≠ o.dir := by
      intro o' ho' he
      exact hhead (he ▸ List.mem_map.mpr ⟨o', ho', rfl⟩)
    have hstep_fs : (navStep s o).fs.Nodup ∧ (navStep s o).tracked.Nodup ∧
        (∀ o' ∈ rest, o'.dir ∉ (navStep s o).fs) ∧
        (∀ o' ∈ rest, o'.dir ∉ (navStep s o).tracked) := by
      cases o with
      | checkoutOk d =>
        refine ⟨nodup_append_singleton h1 hof, nodup_append_singleton h2 hot, ?_, ?_⟩
        · intro o' ho'
          exact not_mem_append_singleton (hfs o' (List.mem_cons_of_mem _ ho'))
            (hdir_rest o' ho')
        · intro o' ho'
          exact not_mem_append_singleton (htr o' (List.mem_cons_of_mem _ ho'))
            (hdir_rest o' ho')
      | buildFail d =>
        refine ⟨nodup_append_singleton h1 hof, nodup_append_singleton h2 hot, ?_, ?_⟩
        · intro o' ho'
          exact not_mem_append_singleton (hfs o' (List.mem_cons_of_mem _ ho'))
            (hdir_rest o' ho')
        · intro o' ho'
          exact not_mem_append_singleton (htr o' (List.mem_cons_of_mem _ ho'))
            (hdir_rest o' ho')
      | checkoutFail d =>
        refine ⟨(nodup_append_singleton h1 hof).erase d,
          (nodup_append_singleton h2 hot).erase d, ?_, ?_⟩
        · intro o' ho' hm
          exact not_mem_append_singleton (hfs o' (List.mem_cons_of_mem _ ho'))
            (hdir_rest o' ho') (List.erase_subset d _ hm)
        · intro o' ho' hm
          exact not_mem_append_singleton (htr o' (List.mem_cons_of_mem _ ho'))
            (hdir_rest o' ho') (List.erase_subset d _ hm)
    exact ih (navStep s o) hndrest hstep_fs.2.2.1 hstep_fs.2.2.2 hstep_fs.1 hstep_fs.2.1

/-- C9: after any navigator session whose scratch directories are pairwise
distinct (as `mkdtemp` guarantees) — including checkouts that succeed,
checkouts that fail and clean themselves up, and graph builds that raise
after a successful checkout — `close` empties the tracking list and removes
every directory the instance still tracks from disk, and a second `close`
(any number of them) succeeds and changes nothing. -/
theorem c9_close_releases_all (ops : List NavOp) (hfresh : (ops.map NavOp.dir).Nodup) :
    (nav_close (navRun ops)).tracked = [] ∧
    (∀ d ∈ (navRun ops).tracked, d ∉ (nav_close (navRun ops)).fs) ∧
    nav_close (nav_close (navRun ops)) = nav_close (navRun ops) := by
  have hinv := nav_inv ops ⟨[], []⟩ hfresh (by simp) (by simp) List.nodup_nil List.nodup_nil
  refine ⟨rfl, ?_, rfl⟩
  intro d hd
  exact mem_tracked_not_mem_foldl (navRun ops).fs hinv.1 d hd

/-- Witness for C9 at a concrete session. -/
theorem c9_witness :
    (c9WOps.map NavOp.dir).Nodup ∧
    ((nav_close (navRun c9WOps)).tracked = [] ∧
     (∀ d ∈ (navRun c9WOps).tracked, d ∉ (nav_close (navRun c9WOps)).fs) ∧
     nav_close (nav_close (navRun c9WOps)) = nav_close (navRun c9WOps)) :=
  ⟨by decide, c9_close_releases_all c9WOps (by decide)⟩
